import Mathlib

/-!
Shallow embedding of the FlagVault JS/TS SDK core (src/index.ts): the
flag-evaluation cache layers, the SHA-256 based percentage-rollout
evaluator, and the evaluation orchestrator. JS Maps are modelled as
association lists that keep insertion order; timestamps are Nat
milliseconds; the hidden effects of the real code (Date.now, fetch,
crypto.randomBytes) are passed in as explicit parameters.
-/

namespace FlagVault

/-- Feature flag metadata returned from the API (interface FeatureFlagMetadata).
The JS number rolloutPercentage is modelled as a rational. -/
structure FeatureFlagMetadata where
  key : String
  isEnabled : Bool
  name : String
  rolloutPercentage : Option ℚ
  rolloutSeed : Option String
deriving Repr, DecidableEq

/-- Cache entry for storing flag data (interface CacheEntry). -/
structure CacheEntry where
  value : Bool
  cachedAt : Nat
  expiresAt : Nat
  lastAccessed : Nat
deriving Repr, DecidableEq

/-! ### JS Map model

A JS Map is an insertion-ordered collection of key/value pairs with
unique keys: `set` on an existing key updates it in place keeping its
position, otherwise appends; `get` finds the entry; `delete` removes it. -/

/-- Model of JS Map.get. -/
def mapGet {β : Type} : List (String × β) → String → Option β
  | [], _ => none
  | (k', v) :: rest, k => if k' = k then some v else mapGet rest k

/-- Model of JS Map.set: replace in place, or append when the key is new. -/
def mapSet {β : Type} : List (String × β) → String → β → List (String × β)
  | [], k, v => [(k, v)]
  | (k', v') :: rest, k, v =>
      if k' = k then (k, v) :: rest else (k', v') :: mapSet rest k v

/-- Model of JS Map.delete. -/
def mapDelete {β : Type} : List (String × β) → String → List (String × β)
  | [], _ => []
  | (k', v') :: rest, k => if k' = k then rest else (k', v') :: mapDelete rest k

/-- The keys of a map, in iteration order. -/
def mapKeys {β : Type} (c : List (String × β)) : List String :=
  c.map Prod.fst

/-- The per-flag cache (the private Map of the SDK class). -/
abbrev FlagCache := List (String × CacheEntry)

/-! ### SHA-256 (crypto.createHash "sha256"), on byte lists -/

/-- UTF-8 encoding of one code point, as Node Buffer.from(s, "utf8") does. -/
def utf8EncodeChar (c : Nat) : List Nat :=
  if c < 128 then [c]
  else if c < 2048 then [192 + c / 64, 128 + c % 64]
  else if c < 65536 then [224 + c / 4096, 128 + (c / 64) % 64, 128 + c % 64]
  else [240 + c / 262144, 128 + (c / 4096) % 64, 128 + (c / 64) % 64, 128 + c % 64]

/-- The UTF-8 bytes of a string. -/
def utf8Bytes (s : String) : List Nat :=
  s.data.flatMap (fun c => utf8EncodeChar c.toNat)

/-- Rotate a 32-bit word right by n positions. -/
def rotr32 (n x : Nat) : Nat :=
  ((x >>> n) ||| (x <<< (32 - n))) % 2 ^ 32

/-- Bitwise complement on 32 bits. -/
def not32 (x : Nat) : Nat := (2 ^ 32 - 1) ^^^ x

/-- The 64 round constants of SHA-256, written in decimal. -/
def sha256K : List Nat :=
  [1116352408, 1899447441, 3049323471, 3921009573, 961987163,
   1508970993, 2453635748, 2870763221, 3624381080, 310598401,
   607225278, 1426881987, 1925078388, 2162078206, 2614888103,
   3248222580, 3835390401, 4022224774, 264347078, 604807628,
   770255983, 1249150122, 1555081692, 1996064986, 2554220882,
   2821834349, 2952996808, 3210313671, 3336571891, 3584528711,
   113926993, 338241895, 666307205, 773529912, 1294757372,
   1396182291, 1695183700, 1986661051, 2177026350, 2456956037,
   2730485921, 2820302411, 3259730800, 3345764771, 3516065817,
   3600352804, 4094571909, 275423344, 430227734, 506948616,
   659060556, 883997877, 958139571, 1322822218, 1537002063,
   1747873779, 1955562222, 2024104815, 2227730452, 2361852424,
   2428436474, 2756734187, 3204031479, 3329325298]

/-- The eight initial hash words of SHA-256, written in decimal. -/
def sha256Init : List Nat :=
  [1779033703, 3144134277, 1013904242, 2773480762,
   1359893119, 2600822924, 528734635, 1541459225]

/-- Big-endian bytes of a value, fixed width. -/
def toBytesBE (numBytes v : Nat) : List Nat :=
  (List.range numBytes).map (fun i => (v >>> (8 * (numBytes - 1 - i))) % 256)

/-- SHA-256 padding: append 0x80, zeros, and the 64-bit bit length. -/
def padMessage (msg : List Nat) : List Nat :=
  let len := msg.length
  let zeros := (119 - len % 64) % 64
  msg ++ 128 :: List.replicate zeros 0 ++ toBytesBE 8 (len * 8)

/-- Group bytes into big-endian 32-bit words. -/
def bytesToWords : List Nat → List Nat
  | b0 :: b1 :: b2 :: b3 :: rest =>
      (((b0 * 256 + b1) * 256 + b2) * 256 + b3) :: bytesToWords rest
  | _ => []

/-- Split a word list into 16-word blocks. -/
def chunkWords : List Nat → List (List Nat)
  | w0 :: w1 :: w2 :: w3 :: w4 :: w5 :: w6 :: w7 ::
    w8 :: w9 :: w10 :: w11 :: w12 :: w13 :: w14 :: w15 :: rest =>
      [w0, w1, w2, w3, w4, w5, w6, w7, w8, w9, w10, w11, w12, w13, w14, w15]
        :: chunkWords rest
  | _ => []

def smallSigma0 (x : Nat) : Nat := rotr32 7 x ^^^ rotr32 18 x ^^^ (x >>> 3)

def smallSigma1 (x : Nat) : Nat := rotr32 17 x ^^^ rotr32 19 x ^^^ (x >>> 10)

def bigSigma0 (x : Nat) : Nat := rotr32 2 x ^^^ rotr32 13 x ^^^ rotr32 22 x

def bigSigma1 (x : Nat) : Nat := rotr32 6 x ^^^ rotr32 11 x ^^^ rotr32 25 x

def sha256Ch (e f g : Nat) : Nat := (e &&& f) ^^^ (not32 e &&& g)

def sha256Maj (a b c : Nat) : Nat := (a &&& b) ^^^ (a &&& c) ^^^ (b &&& c)

/-- Extend the message schedule by one word. -/
def scheduleStep (w : List Nat) : List Nat :=
  let i := w.length
  w ++ [(smallSigma1 (w.getD (i - 2) 0) + w.getD (i - 7) 0
         + smallSigma0 (w.getD (i - 15) 0) + w.getD (i - 16) 0) % 2 ^ 32]

/-- Iterate the schedule extension. -/
def buildSchedule (w : List Nat) : Nat → List Nat
  | 0 => w
  | n + 1 => buildSchedule (scheduleStep w) n

/-- One SHA-256 compression round on the eight working registers. -/
def compressRound (s : List Nat) (kw : Nat × Nat) : List Nat :=
  let a := s.getD 0 0
  let b := s.getD 1 0
  let c := s.getD 2 0
  let d := s.getD 3 0
  let e := s.getD 4 0
  let f := s.getD 5 0
  let g := s.getD 6 0
  let h := s.getD 7 0
  let t1 := (h + bigSigma1 e + sha256Ch e f g + kw.1 + kw.2) % 2 ^ 32
  let t2 := (bigSigma0 a + sha256Maj a b c) % 2 ^ 32
  [(t1 + t2) % 2 ^ 32, a, b, c, (d + t1) % 2 ^ 32, e, f, g]

/-- Compress one 16-word block into the hash state. -/
def compressBlock (h : List Nat) (block : List Nat) : List Nat :=
  let w := buildSchedule block 48
  let s := (sha256K.zip w).foldl compressRound h
  (h.zip s).map (fun p => (p.1 + p.2) % 2 ^ 32)

/-- SHA-256 digest of a byte list, as a list of 32 bytes. -/
def sha256Bytes (msg : List Nat) : List Nat :=
  ((chunkWords (bytesToWords (padMessage msg))).foldl compressBlock sha256Init).flatMap
    (toBytesBE 4)

/-! ### Rollout evaluator (private evaluateFlag)

The random identifier that crypto.randomBytes(16).toString("hex") would
produce is passed in explicitly as freshHexId; JS string truthiness makes
the empty string behave like an absent targetId. -/

/-- The consistent hash bucket of evaluateFlag: first two bytes of the
SHA-256 digest of targetId-key-seed, reduced modulo 10000. -/
def rolloutBucket (rolloutTargetId key seed : String) : Nat :=
  let hash := sha256Bytes (utf8Bytes (rolloutTargetId ++ "-" ++ key ++ "-" ++ seed))
  (hash.getD 0 0 * 256 + hash.getD 1 0) % 10000

/-- Model of evaluateFlag: local percentage-rollout decision. -/
def evaluateFlag (flag : FeatureFlagMetadata) (targetId : Option String)
    (freshHexId : String) : Bool :=
  if !flag.isEnabled then false
  else
    match flag.rolloutPercentage, flag.rolloutSeed with
    | some p, some seed =>
        let rolloutTargetId :=
          match targetId with
          | some t => if t = "" then freshHexId else t
          | none => freshHexId
        decide ((rolloutBucket rolloutTargetId flag.key seed : ℚ) < p * 100)
    | _, _ => flag.isEnabled

/-- The composite cache key of isEnabled:
targetId ? flagKey + ":" + targetId : flagKey, with JS truthiness. -/
def cacheKeyOf (flagKey : String) (targetId : Option String) : String :=
  match targetId with
  | some t => if t = "" then flagKey else flagKey ++ ":" ++ t
  | none => flagKey

/-! ### Per-flag cache operations -/

/-- Model of getCachedValue: the returned value and the cache afterwards
(the JS method mutates this.cache in place). -/
def getCachedValue (cache : FlagCache) (flagKey : String) (now : Nat) :
    Option Bool × FlagCache :=
  match mapGet cache flagKey with
  | none => (none, cache)
  | some entry =>
      if entry.expiresAt < now then (none, mapDelete cache flagKey)
      else (some entry.value, mapSet cache flagKey { entry with lastAccessed := now })

/-- The for-loop of evictOldestEntry: current oldestKey and oldestTime
accumulators, with none standing for the initial Infinity. -/
def scanOldest : FlagCache → String → Option Nat → String × Option Nat
  | [], k, t => (k, t)
  | (k', e') :: rest, k, t =>
      match t with
      | none => scanOldest rest k' (some e'.lastAccessed)
      | some tv =>
          if e'.lastAccessed < tv then scanOldest rest k' (some e'.lastAccessed)
          else scanOldest rest k (some tv)

/-- Model of evictOldestEntry: delete the entry with the smallest
lastAccessed; the empty-string guard mirrors if (oldestKey). -/
def evictOldestEntry (cache : FlagCache) : FlagCache :=
  let oldestKey := (scanOldest cache "" none).1
  if oldestKey = "" then cache else mapDelete cache oldestKey

/-- Model of setCachedValue; ttl is in seconds, now in milliseconds. -/
def setCachedValue (cache : FlagCache) (flagKey : String) (value : Bool)
    (now ttl maxSize : Nat) : FlagCache :=
  let cache1 := if maxSize ≤ cache.length then evictOldestEntry cache else cache
  mapSet cache1 flagKey
    { value := value, cachedAt := now, expiresAt := now + ttl * 1000, lastAccessed := now }

/-! ### SDK state and remote fetch outcomes -/

/-- Fallback behavior configuration values. -/
inductive FallbackBehavior where
  | returnDefault
  | throwError
  | retryApi
deriving Repr, DecidableEq

/-- Resolved cache configuration (Required CacheConfig). -/
structure CacheConfig where
  enabled : Bool
  ttl : Nat
  maxSize : Nat
  refreshInterval : Nat
  fallbackBehavior : FallbackBehavior
deriving Repr, DecidableEq

/-- The bulk flags snapshot (this.bulkFlagsCache). -/
structure BulkSnapshot where
  flags : List (String × FeatureFlagMetadata)
  cachedAt : Nat
  expiresAt : Nat
deriving Repr, DecidableEq

/-- The mutable fields of the FlagVaultSDK instance that the modelled
operations touch; refreshTimer is whether the interval timer is set. -/
structure SDKState where
  cacheConfig : CacheConfig
  cache : FlagCache
  refreshTimer : Bool
  bulkFlagsCache : Option BulkSnapshot
deriving Repr, DecidableEq

/-- Model of destroy: clear the interval timer and the per-flag cache. -/
def destroy (st : SDKState) : SDKState :=
  { st with refreshTimer := false, cache := [] }

/-- Whether response.ok holds, i.e. the status is in the 2xx range. -/
def respOk (status : Nat) : Bool := 200 ≤ status && status ≤ 299

/-- Parse result of the single-flag response body: response.json()
either rejects, or yields data whose optional enabled field is read. -/
inductive FlagBody where
  | malformed
  | parsed (enabled : Option Bool)
deriving Repr, DecidableEq

/-- Outcome of the fetch call inside fetchFlagFromApiWithCacheInfo:
a response with a status and body, or a thrown error classified the way
the catch block does (AbortError, TypeError, anything else). -/
inductive FetchOutcome where
  | response (status : Nat) (body : FlagBody)
  | abortError
  | typeError
  | otherError
deriving Repr, DecidableEq

/-- Model of fetchFlagFromApiWithCacheInfo: the value / shouldCache pair.
Every branch except a 2xx response with a parseable body absorbs the
failure into (defaultValue, false) after a console warning. -/
def fetchFlagFromApiWithCacheInfo (outcome : FetchOutcome) (defaultValue : Bool) :
    Bool × Bool :=
  match outcome with
  | .response status body =>
      if status = 401 then (defaultValue, false)
      else if status = 403 then (defaultValue, false)
      else if status = 404 then (defaultValue, false)
      else if !respOk status then (defaultValue, false)
      else
        match body with
        | .malformed => (defaultValue, false)
        | .parsed enabled => (enabled.getD false, true)
  | .abortError => (defaultValue, false)
  | .typeError => (defaultValue, false)
  | .otherError => (defaultValue, false)

/-- The bulk-cache lookup at the start of isEnabled: the flag metadata
when caching is on and a fresh snapshot contains the key. -/
def bulkLookup (st : SDKState) (flagKey : String) (now : Nat) :
    Option FeatureFlagMetadata :=
  if st.cacheConfig.enabled then
    match st.bulkFlagsCache with
    | some b => if now < b.expiresAt then mapGet b.flags flagKey else none
    | none => none
  else none

/-- Model of isEnabled: result (or the parameter-validation error),
the state afterwards, and whether the network fetch was consulted. -/
def isEnabled (st : SDKState) (flagKey : String) (defaultValue : Bool)
    (targetId : Option String) (freshHexId : String) (outcome : FetchOutcome)
    (now : Nat) : Except Unit Bool × SDKState × Bool :=
  if flagKey = "" then (.error (), st, false)
  else
    match bulkLookup st flagKey now with
    | some flag => (.ok (evaluateFlag flag targetId freshHexId), st, false)
    | none =>
        let cacheKey := cacheKeyOf flagKey targetId
        match (if st.cacheConfig.enabled then getCachedValue st.cache cacheKey now
               else (none, st.cache)) with
        | (some v, cache1) => (.ok v, { st with cache := cache1 }, false)
        | (none, cache1) =>
            let vc := fetchFlagFromApiWithCacheInfo outcome defaultValue
            let cache2 :=
              if st.cacheConfig.enabled && vc.2 then
                setCachedValue cache1 cacheKey vc.1 now st.cacheConfig.ttl
                  st.cacheConfig.maxSize
              else cache1
            (.ok vc.1, { st with cache := cache2 }, true)

/-! ### Bulk fetch (getAllFlags) -/

/-- Structured SDK errors; other stands for a rethrown raw error. -/
inductive SDKErr where
  | apiError (status : Nat)
  | networkTimeout
  | networkConnect
  | other
deriving Repr, DecidableEq

/-- Parse result of the bulk response body: data.flags when it is an
array, none when the field is missing or not an array. -/
inductive BulkBody where
  | malformed
  | parsed (flags : Option (List FeatureFlagMetadata))
deriving Repr, DecidableEq

/-- Outcome of the fetch call inside getAllFlags. -/
inductive BulkFetchOutcome where
  | response (status : Nat) (body : BulkBody)
  | abortError
  | typeError
  | otherError
deriving Repr, DecidableEq

/-- The Map built from the flags array by flags.set(flag.key, flag). -/
def buildFlagsMap (fl : Option (List FeatureFlagMetadata)) :
    List (String × FeatureFlagMetadata) :=
  match fl with
  | some l => l.foldl (fun m f => mapSet m f.key f) []
  | none => []

/-- The fresh bulk-cache short-circuit at the start of getAllFlags. -/
def freshBulk (st : SDKState) (now : Nat) :
    Option (List (String × FeatureFlagMetadata)) :=
  if st.cacheConfig.enabled then
    match st.bulkFlagsCache with
    | some b => if now < b.expiresAt then some b.flags else none
    | none => none
  else none

/-- Model of getAllFlags: the returned flag map or the raised error,
and the state afterwards. -/
def getAllFlags (st : SDKState) (outcome : BulkFetchOutcome) (now : Nat) :
    Except SDKErr (List (String × FeatureFlagMetadata)) × SDKState :=
  match freshBulk st now with
  | some fl => (.ok fl, st)
  | none =>
      match outcome with
      | .response status body =>
          if !respOk status then (.error (.apiError status), st)
          else
            match body with
            | .malformed => (.error .other, st)
            | .parsed fl =>
                let flags := buildFlagsMap fl
                let snap : BulkSnapshot :=
                  { flags := flags, cachedAt := now,
                    expiresAt := now + st.cacheConfig.ttl * 1000 }
                let st' :=
                  if st.cacheConfig.enabled then
                    { st with bulkFlagsCache := some snap }
                  else st
                (.ok flags, st')
      | .abortError => (.error .networkTimeout, st)
      | .typeError => (.error .networkConnect, st)
      | .otherError => (.error .other, st)

/-! ### Concrete sample inputs used by witnesses and counterexamples -/

/-- A rollout flag at 50 percent with seed "s". -/
def sampleFlag : FeatureFlagMetadata :=
  { key := "f", isEnabled := true, name := "Sample",
    rolloutPercentage := some 50, rolloutSeed := some "s" }

/-- A disabled flag carrying a 100 percent rollout. -/
def disabledFlag : FeatureFlagMetadata :=
  { key := "f", isEnabled := false, name := "Sample",
    rolloutPercentage := some 100, rolloutSeed := some "s" }

/-- An enabled flag at 0 percent rollout. -/
def zeroPercentFlag : FeatureFlagMetadata :=
  { key := "f", isEnabled := true, name := "Sample",
    rolloutPercentage := some 0, rolloutSeed := some "s" }

/-- An enabled flag at 100 percent rollout. -/
def fullPercentFlag : FeatureFlagMetadata :=
  { key := "f", isEnabled := true, name := "Sample",
    rolloutPercentage := some 100, rolloutSeed := some "s" }

/-- A 16-byte hex identifier, as crypto.randomBytes(16).toString("hex")
could draw it; its rollout bucket for sampleFlag is 1227 < 5000. -/
def rLo : String := "00000000000000000000000000000000"

/-- Another such identifier; its rollout bucket for sampleFlag is
7615, at or above the 50 percent threshold of 5000. -/
def rHi : String := "00000000000000000000000000000003"

/-- A cache entry expiring at time 100. -/
def sampleEntry : CacheEntry :=
  { value := true, cachedAt := 0, expiresAt := 100, lastAccessed := 0 }

/-- A one-entry per-flag cache. -/
def singleCache : FlagCache := [("k", sampleEntry)]

/-- A two-entry cache at capacity two; "a" is least recently used. -/
def fullCache : FlagCache :=
  [("a", { value := true, cachedAt := 0, expiresAt := 100, lastAccessed := 1 }),
   ("b", { value := true, cachedAt := 0, expiresAt := 100, lastAccessed := 2 })]

/-- The default resolved cache configuration. -/
def sampleConfig : CacheConfig :=
  { enabled := true, ttl := 300, maxSize := 1000, refreshInterval := 60,
    fallbackBehavior := .returnDefault }

/-- A bulk snapshot holding sampleFlag, fresh until time 1000. -/
def sampleSnapshot : BulkSnapshot :=
  { flags := [("f", sampleFlag)], cachedAt := 0, expiresAt := 1000 }

/-- An SDK state with an active timer, one cached entry and a bulk snapshot. -/
def sampleState : SDKState :=
  { cacheConfig := sampleConfig, cache := singleCache,
    refreshTimer := true, bulkFlagsCache := some sampleSnapshot }

/-- Reachable-state invariant of the per-flag cache: keys are unique
(it models a Map) and nonempty (isEnabled rejects an empty flagKey, so
every composite cache key is nonempty). -/
def CacheWF (c : FlagCache) : Prop :=
  (mapKeys c).Nodup ∧ ∀ k ∈ mapKeys c, k ≠ ""

/-- Whether the single-flag fetch outcome is the one cacheable case:
a 2xx response whose body parsed. -/
def isCacheableOutcome (o : FetchOutcome) : Bool :=
  match o with
  | .response status (.parsed _) => respOk status
  | _ => false

/-- The write-back step of isEnabled after a fetch: cache the value only
when caching is enabled and the response was cacheable. -/
def cacheAfterFetch (cache : FlagCache) (cacheKey : String) (vc : Bool × Bool)
    (enabled : Bool) (now ttl maxSize : Nat) : FlagCache :=
  if enabled && vc.2 then setCachedValue cache cacheKey vc.1 now ttl maxSize
  else cache

/-! ### Lemmas about the JS Map model -/

theorem mapGet_mapSet_self {β : Type} (c : List (String × β)) (k : String) (v : β) :
    mapGet (mapSet c k v) k = some v := by
  induction c with
  | nil => simp [mapGet, mapSet]
  | cons p rest ih =>
      obtain ⟨k', v'⟩ := p
      by_cases h : k' = k
      · simp [mapGet, mapSet, h]
      · simp [mapGet, mapSet, h, ih]

theorem mapKeys_nil {β : Type} : mapKeys ([] : List (String × β)) = [] := rfl

theorem mapKeys_cons {β : Type} (p : String × β) (rest : List (String × β)) :
    mapKeys (p :: rest) = p.1 :: mapKeys rest := rfl

theorem mapGet_mapSet_ne {β : Type} (c : List (String × β)) (k k' : String) (v : β)
    (h : k' ≠ k) : mapGet (mapSet c k v) k' = mapGet c k' := by
  induction c with
  | nil => simp [mapGet, mapSet, Ne.symm h]
  | cons p rest ih =>
      obtain ⟨a, b⟩ := p
      by_cases hk : a = k
      · subst hk
        simp [mapGet, mapSet, Ne.symm h]
      · simp [mapGet, mapSet, hk, ih]

theorem mem_mapKeys_iff_isSome {β : Type} (c : List (String × β)) (k : String) :
    k ∈ mapKeys c ↔ (mapGet c k).isSome := by
  induction c with
  | nil => simp [mapKeys_nil, mapGet]
  | cons p rest ih =>
      obtain ⟨a, b⟩ := p
      by_cases h : a = k
      · simp [mapKeys_cons, mapGet, h]
      · rw [mapKeys_cons]
        simp only [List.mem_cons, mapGet, h, if_false]
        constructor
        · rintro (h1 | h2)
          · exact absurd h1.symm h
          · exact ih.mp h2
        · intro hs
          exact Or.inr (ih.mpr hs)

theorem mapGet_mem {β : Type} (c : List (String × β)) (k : String) (v : β)
    (h : mapGet c k = some v) : (k, v) ∈ c := by
  induction c with
  | nil => simp [mapGet] at h
  | cons p rest ih =>
      obtain ⟨a, b⟩ := p
      by_cases hk : a = k
      · subst hk
        simp [mapGet] at h
        simp [h]
      · simp [mapGet, hk] at h
        exact List.mem_cons_of_mem _ (ih h)

theorem mem_mapGet {β : Type} (c : List (String × β)) (k : String) (v : β)
    (hnd : (mapKeys c).Nodup) (h : (k, v) ∈ c) : mapGet c k = some v := by
  induction c with
  | nil => simp at h
  | cons p rest ih =>
      obtain ⟨a, b⟩ := p
      rw [mapKeys_cons] at hnd
      have hnd1 := (List.nodup_cons.mp hnd).1
      have hnd2 := (List.nodup_cons.mp hnd).2
      rcases List.mem_cons.mp h with h1 | h2
      · cases h1
        simp [mapGet]
      · have ha : a ≠ k := by
          intro hak
          subst hak
          exact hnd1 (List.mem_map.mpr ⟨(a, v), h2, rfl⟩)
        simp [mapGet, ha]
        exact ih hnd2 h2

theorem mapGet_mapDelete_self {β : Type} (c : List (String × β)) (k : String)
    (hnd : (mapKeys c).Nodup) : mapGet (mapDelete c k) k = none := by
  induction c with
  | nil => simp [mapDelete, mapGet]
  | cons p rest ih =>
      obtain ⟨a, b⟩ := p
      rw [mapKeys_cons] at hnd
      have hnd1 := (List.nodup_cons.mp hnd).1
      have hnd2 := (List.nodup_cons.mp hnd).2
      by_cases h : a = k
      · subst h
        have hdel : mapDelete ((a, b) :: rest) a = rest := by simp [mapDelete]
        rw [hdel]
        cases hg : mapGet rest a with
        | none => rfl
        | some v =>
            exact absurd (List.mem_map.mpr ⟨(a, v), mapGet_mem rest a v hg, rfl⟩) hnd1
      · simp [mapDelete, mapGet, h]
        exact ih hnd2

theorem mapGet_mapDelete_ne {β : Type} (c : List (String × β)) (k k' : String)
    (h : k' ≠ k) : mapGet (mapDelete c k) k' = mapGet c k' := by
  induction c with
  | nil => simp [mapDelete]
  | cons p rest ih =>
      obtain ⟨a, b⟩ := p
      by_cases hk : a = k
      · subst hk
        simp [mapDelete, mapGet, Ne.symm h]
      · simp [mapDelete, mapGet, hk, ih]

theorem length_mapSet {β : Type} (c : List (String × β)) (k : String) (v : β) :
    (mapSet c k v).length = if (mapGet c k).isSome then c.length else c.length + 1 := by
  induction c with
  | nil => simp [mapSet, mapGet]
  | cons p rest ih =>
      obtain ⟨k', v'⟩ := p
      by_cases h : k' = k
      · simp [mapSet, mapGet, h]
      · simp only [mapSet, mapGet, h, if_false, List.length_cons, ih]
        split <;> simp

theorem length_mapDelete {β : Type} (c : List (String × β)) (k : String)
    (h : (mapGet c k).isSome) : (mapDelete c k).length + 1 = c.length := by
  induction c with
  | nil => simp [mapGet] at h
  | cons p rest ih =>
      obtain ⟨k', v'⟩ := p
      by_cases hk : k' = k
      · simp [mapDelete, hk]
      · simp [mapGet, hk] at h
        simp [mapDelete, hk, ih h]

theorem mapKeys_mapSet {β : Type} (c : List (String × β)) (k : String) (v : β) :
    mapKeys (mapSet c k v)
      = if (mapGet c k).isSome then mapKeys c else mapKeys c ++ [k] := by
  induction c with
  | nil => simp [mapSet, mapGet, mapKeys]
  | cons p rest ih =>
      obtain ⟨k', v'⟩ := p
      by_cases h : k' = k
      · simp [mapSet, mapGet, mapKeys, h]
      · simp only [mapSet, mapGet, h, if_false, mapKeys, List.map_cons] at ih ⊢
        rw [ih]
        split <;> simp

theorem mapKeys_mapDelete_sublist {β : Type} (c : List (String × β)) (k : String) :
    (mapKeys (mapDelete c k)).Sublist (mapKeys c) := by
  induction c with
  | nil => simp [mapDelete]
  | cons p rest ih =>
      obtain ⟨k', v'⟩ := p
      by_cases h : k' = k
      · simp [mapDelete, h, mapKeys]
      · simp only [mapDelete, h, if_false, mapKeys, List.map_cons]
        exact List.Sublist.cons₂ _ ih

/-! ### Lemmas about LRU eviction -/

/-- Invariant of the scan loop: the running minimum is a lower bound of
everything seen, and the running key either is still the initial one or
names an entry of the list achieving the minimum. -/
theorem scanOldest_spec (c : FlagCache) : ∀ (k0 : String) (t0 : Nat),
    ∃ tv, (scanOldest c k0 (some t0)).2 = some tv ∧ tv ≤ t0 ∧
      (∀ p ∈ c, tv ≤ p.2.lastAccessed) ∧
      (((scanOldest c k0 (some t0)).1 = k0 ∧ tv = t0) ∨
        ∃ e, ((scanOldest c k0 (some t0)).1, e) ∈ c ∧ e.lastAccessed = tv) := by
  induction c with
  | nil =>
      intro k0 t0
      exact ⟨t0, rfl, le_refl _, by simp, Or.inl ⟨rfl, rfl⟩⟩
  | cons p rest ih =>
      intro k0 t0
      obtain ⟨a, e⟩ := p
      by_cases h : e.lastAccessed < t0
      · have hstep : scanOldest ((a, e) :: rest) k0 (some t0)
            = scanOldest rest a (some e.lastAccessed) := by
          simp [scanOldest, h]
        obtain ⟨tv, h1, h2, h3, h4⟩ := ih a e.lastAccessed
        refine ⟨tv, by rw [hstep]; exact h1, le_trans h2 (le_of_lt h), ?_, ?_⟩
        · intro q hq
          rcases List.mem_cons.mp hq with hq1 | hq2
          · cases hq1
            exact h2
          · exact h3 q hq2
        · rw [hstep]
          rcases h4 with ⟨hk, htv⟩ | ⟨e', he', htv⟩
          · exact Or.inr ⟨e, by rw [hk]; exact List.mem_cons_self _ _, htv ▸ rfl⟩
          · exact Or.inr ⟨e', List.mem_cons_of_mem _ he', htv⟩
      · have hstep : scanOldest ((a, e) :: rest) k0 (some t0)
            = scanOldest rest k0 (some t0) := by
          simp [scanOldest, h]
        obtain ⟨tv, h1, h2, h3, h4⟩ := ih k0 t0
        refine ⟨tv, by rw [hstep]; exact h1, h2, ?_, ?_⟩
        · intro q hq
          rcases List.mem_cons.mp hq with hq1 | hq2
          · cases hq1
            exact le_trans h2 (le_of_not_lt h)
          · exact h3 q hq2
        · rw [hstep]
          rcases h4 with ⟨hk, htv⟩ | ⟨e', he', htv⟩
          · exact Or.inl ⟨hk, htv⟩
          · exact Or.inr ⟨e', List.mem_cons_of_mem _ he', htv⟩

/-- On a nonempty cache whose keys are all nonempty strings,
evictOldestEntry deletes a key whose entry has minimal lastAccessed. -/
theorem evictOldestEntry_spec (c : FlagCache) (hne : c ≠ [])
    (hkeys : ∀ k ∈ mapKeys c, k ≠ "") :
    ∃ m e, (m, e) ∈ c ∧ (∀ p ∈ c, e.lastAccessed ≤ p.2.lastAccessed) ∧
      evictOldestEntry c = mapDelete c m := by
  match c, hne with
  | (a, e0) :: rest, _ =>
    have hstep : scanOldest ((a, e0) :: rest) "" none
        = scanOldest rest a (some e0.lastAccessed) := by
      simp [scanOldest]
    obtain ⟨tv, h1, h2, h3, h4⟩ := scanOldest_spec rest a e0.lastAccessed
    set m := (scanOldest rest a (some e0.lastAccessed)).1 with hm
    have hmem : ∃ e, (m, e) ∈ (a, e0) :: rest ∧ e.lastAccessed = tv := by
      rcases h4 with ⟨hk, htv⟩ | ⟨e', he', htv⟩
      · exact ⟨e0, by rw [hk]; exact List.mem_cons_self _ _, by omega⟩
      · exact ⟨e', List.mem_cons_of_mem _ he', htv⟩
    obtain ⟨e, hemem, hetv⟩ := hmem
    have hmne : m ≠ "" := hkeys m (List.mem_map.mpr ⟨(m, e), hemem, rfl⟩)
    refine ⟨m, e, hemem, ?_, ?_⟩
    · intro q hq
      rcases List.mem_cons.mp hq with hq1 | hq2
      · cases hq1
        show e.lastAccessed ≤ e0.lastAccessed
        omega
      · have := h3 q hq2
        omega
    · unfold evictOldestEntry
      rw [hstep, ← hm, if_neg hmne]

theorem cacheWF_mapSet (c : FlagCache) (k : String) (e : CacheEntry)
    (hwf : CacheWF c) (hk : k ≠ "") : CacheWF (mapSet c k e) := by
  obtain ⟨hnd, hne⟩ := hwf
  rw [CacheWF, mapKeys_mapSet]
  by_cases h : (mapGet c k).isSome
  · rw [if_pos h]
    exact ⟨hnd, hne⟩
  · rw [if_neg h]
    constructor
    · rw [List.nodup_append]
      refine ⟨hnd, List.nodup_singleton k, ?_⟩
      intro x hx hx'
      rw [List.mem_singleton] at hx'
      subst hx'
      rw [mem_mapKeys_iff_isSome] at hx
      exact h hx
    · intro k' hk'
      rcases List.mem_append.mp hk' with h1 | h2
      · exact hne k' h1
      · rw [List.mem_singleton] at h2
        subst h2
        exact hk

theorem cacheWF_mapDelete (c : FlagCache) (k : String) (hwf : CacheWF c) :
    CacheWF (mapDelete c k) := by
  obtain ⟨hnd, hne⟩ := hwf
  refine ⟨hnd.sublist (mapKeys_mapDelete_sublist c k), ?_⟩
  intro k' hk'
  exact hne k' ((mapKeys_mapDelete_sublist c k).mem hk')

theorem cacheWF_evict (c : FlagCache) (hwf : CacheWF c) :
    CacheWF (evictOldestEntry c) := by
  by_cases h : (scanOldest c "" none).1 = ""
  · simpa [evictOldestEntry, h] using hwf
  · have heq : evictOldestEntry c = mapDelete c (scanOldest c "" none).1 := by
      simp [evictOldestEntry, h]
    rw [heq]
    exact cacheWF_mapDelete c _ hwf

theorem cacheWF_setCachedValue (c : FlagCache) (k : String) (v : Bool)
    (now ttl maxSize : Nat) (hwf : CacheWF c) (hk : k ≠ "") :
    CacheWF (setCachedValue c k v now ttl maxSize) := by
  unfold setCachedValue
  split
  · exact cacheWF_mapSet _ k _ (cacheWF_evict c hwf) hk
  · exact cacheWF_mapSet _ k _ hwf hk

theorem length_mapSet_le {β : Type} (c : List (String × β)) (k : String) (v : β) :
    (mapSet c k v).length ≤ c.length + 1 := by
  rw [length_mapSet]
  split <;> omega

/-- After a put the cache never holds more than maxSize entries
(provided maxSize is positive and the state is well formed). -/
theorem setCachedValue_length_le (c : FlagCache) (k : String) (v : Bool)
    (now ttl maxSize : Nat) (hwf : CacheWF c)
    (hmax : 1 ≤ maxSize) (hlen : c.length ≤ maxSize) :
    (setCachedValue c k v now ttl maxSize).length ≤ maxSize := by
  unfold setCachedValue
  by_cases hfull : maxSize ≤ c.length
  · have hcne : c ≠ [] := by
      intro hnil
      rw [hnil] at hfull
      simp at hfull
      omega
    obtain ⟨m, e, hmem, _, hev⟩ := evictOldestEntry_spec c hcne hwf.2
    have hms : (mapGet c m).isSome := by
      rw [← mem_mapKeys_iff_isSome]
      exact List.mem_map.mpr ⟨(m, e), hmem, rfl⟩
    have hdel : (mapDelete c m).length + 1 = c.length := length_mapDelete c m hms
    simp only [hfull, if_true, hev]
    calc (mapSet (mapDelete c m) k _).length
        ≤ (mapDelete c m).length + 1 := length_mapSet_le _ k _
      _ = c.length := hdel
      _ ≤ maxSize := hlen
  · simp only [hfull, if_false]
    calc (mapSet c k _).length ≤ c.length + 1 := length_mapSet_le c k _
      _ ≤ maxSize := by omega

/-! ### Helper facts about concrete rollout evaluations -/

theorem rolloutBucket_lt (r k s : String) : rolloutBucket r k s < 10000 :=
  Nat.mod_lt _ (by norm_num)

theorem evaluateFlag_disabled (flag : FeatureFlagMetadata)
    (targetId : Option String) (rid : String) (h : flag.isEnabled = false) :
    evaluateFlag flag targetId rid = false := by
  simp [evaluateFlag, h]

/-- Reduction of evaluateFlag on a nonempty supplied target identifier:
the hash input is the target identifier itself. -/
theorem evaluateFlag_target (flag : FeatureFlagMetadata) (p : ℚ) (s t rid : String)
    (h : flag.isEnabled = true) (hp : flag.rolloutPercentage = some p)
    (hs : flag.rolloutSeed = some s) (ht : t ≠ "") :
    evaluateFlag flag (some t) rid
      = decide ((rolloutBucket t flag.key s : ℚ) < p * 100) := by
  unfold evaluateFlag
  rw [h, hp, hs]
  simp [ht]

/-- Reduction of evaluateFlag without a target identifier: the hash input
is the freshly drawn random identifier. -/
theorem evaluateFlag_noTarget (flag : FeatureFlagMetadata) (p : ℚ) (s rid : String)
    (h : flag.isEnabled = true) (hp : flag.rolloutPercentage = some p)
    (hs : flag.rolloutSeed = some s) :
    evaluateFlag flag none rid
      = decide ((rolloutBucket rid flag.key s : ℚ) < p * 100) := by
  unfold evaluateFlag
  rw [h, hp, hs]
  simp

/-- Reduction of evaluateFlag on an empty-string target identifier: JS
truthiness makes it fall back to the random identifier. -/
theorem evaluateFlag_emptyTarget (flag : FeatureFlagMetadata) (p : ℚ) (s rid : String)
    (h : flag.isEnabled = true) (hp : flag.rolloutPercentage = some p)
    (hs : flag.rolloutSeed = some s) :
    evaluateFlag flag (some "") rid
      = decide ((rolloutBucket rid flag.key s : ℚ) < p * 100) := by
  unfold evaluateFlag
  rw [h, hp, hs]
  simp

/-- At 0 percent no bucket is below the threshold. -/
theorem bucket_zero_false (rt key s : String) :
    decide ((rolloutBucket rt key s : ℚ) < 0 * 100) = false := by
  apply decide_eq_false
  rw [zero_mul]
  exact not_lt.mpr (Nat.cast_nonneg _)

/-- At 100 percent every bucket is below the threshold. -/
theorem bucket_hundred_true (rt key s : String) :
    decide ((rolloutBucket rt key s : ℚ) < 100 * 100) = true := by
  apply decide_eq_true
  calc (rolloutBucket rt key s : ℚ)
      < 10000 := by exact_mod_cast rolloutBucket_lt rt key s
    _ = (100 : ℚ) * 100 := by norm_num

set_option maxRecDepth 1000000 in
theorem rolloutBucket_rLo : rolloutBucket rLo "f" "s" = 1227 := by decide

set_option maxRecDepth 1000000 in
theorem rolloutBucket_rHi : rolloutBucket rHi "f" "s" = 7615 := by decide

theorem evaluateFlag_rLo : evaluateFlag sampleFlag (some "") rLo = true := by
  rw [evaluateFlag_emptyTarget sampleFlag 50 "s" rLo rfl rfl rfl]
  rw [show sampleFlag.key = "f" from rfl]
  rw [rolloutBucket_rLo]
  norm_num

theorem evaluateFlag_rHi : evaluateFlag sampleFlag (some "") rHi = false := by
  rw [evaluateFlag_emptyTarget sampleFlag 50 "s" rHi rfl rfl rfl]
  rw [show sampleFlag.key = "f" from rfl]
  rw [rolloutBucket_rHi]
  norm_num

/-! ### Claim theorems -/

/-- C1 counterexample: destroy on a state holding a nonempty bulk snapshot
leaves that snapshot in place, so the bulk layer is not discarded. -/
theorem claim1_counterexample :
    (destroy sampleState).bulkFlagsCache = some sampleSnapshot
      ∧ sampleSnapshot.flags ≠ [] := by
  constructor
  · rfl
  · simp [sampleSnapshot]

/-- C1 (amended): destroy cancels the background refresh timer and empties
the per-flag cache, but leaves the bulk flags snapshot untouched. -/
theorem claim1_destroy_amended (st : SDKState) :
    (destroy st).refreshTimer = false ∧ (destroy st).cache = []
      ∧ (destroy st).bulkFlagsCache = st.bulkFlagsCache :=
  ⟨rfl, rfl, rfl⟩

/-- C3 counterexample: the composite key is not injective across inputs:
a flag key containing the separator collides with a flag/target pair, and
an empty target identifier collides with the no-target form. -/
theorem claim3_counterexample :
    cacheKeyOf "a" (some "b") = cacheKeyOf "a:b" none
      ∧ cacheKeyOf "f" (some "") = cacheKeyOf "f" none := by
  constructor <;> rfl

/-- C3 (amended): for one flag key, two distinct nonempty target
identifiers occupy distinct cache slots, and neither collides with the
no-target slot of that flag key. -/
theorem claim3_isolation_amended (f t1 t2 : String) (h1 : t1 ≠ "")
    (h2 : t2 ≠ "") (hne : t1 ≠ t2) :
    cacheKeyOf f (some t1) ≠ cacheKeyOf f (some t2)
      ∧ cacheKeyOf f (some t1) ≠ cacheKeyOf f none := by
  have hdata : ∀ t : String, t ≠ "" →
      (cacheKeyOf f (some t)).data = f.data ++ ':' :: t.data := by
    intro t ht
    show (if t = "" then f else f ++ ":" ++ t).data = f.data ++ ':' :: t.data
    rw [if_neg ht]
    show ((f ++ ":") ++ t).data = f.data ++ ':' :: t.data
    rw [String.data_append, String.data_append]
    simp
  constructor
  · intro heq
    have hd := congrArg String.data heq
    rw [hdata t1 h1, hdata t2 h2] at hd
    have hcons := List.append_cancel_left hd
    have hteq : t1.data = t2.data := by
      injection hcons
    exact hne (String.ext hteq)
  · intro heq
    have hd := congrArg String.data heq
    rw [hdata t1 h1] at hd
    have hlen := congrArg List.length hd
    simp [cacheKeyOf] at hlen

/-- C3 witness at concrete inputs. -/
theorem claim3_isolation_witness :
    cacheKeyOf "f" (some "x") ≠ cacheKeyOf "f" (some "y")
      ∧ cacheKeyOf "f" (some "x") ≠ cacheKeyOf "f" none :=
  claim3_isolation_amended "f" "x" "y" (by decide) (by decide) (by decide)

/-- C4: rollout boundaries: a disabled flag evaluates to false whatever
the percentage; an enabled flag with seed present evaluates to false at
0 percent and to true at 100 percent, for every target identifier. -/
theorem claim4_rollout_boundaries (flag : FeatureFlagMetadata)
    (targetId : Option String) (rid : String) :
    (flag.isEnabled = false → evaluateFlag flag targetId rid = false)
    ∧ (flag.isEnabled = true → flag.rolloutPercentage = some 0 →
        flag.rolloutSeed.isSome → evaluateFlag flag targetId rid = false)
    ∧ (flag.isEnabled = true → flag.rolloutPercentage = some 100 →
        flag.rolloutSeed.isSome → evaluateFlag flag targetId rid = true) := by
  refine ⟨?_, ?_, ?_⟩
  · intro h
    exact evaluateFlag_disabled flag targetId rid h
  · intro h hp hs
    obtain ⟨s, hseed⟩ := Option.isSome_iff_exists.mp hs
    cases targetId with
    | none => rw [evaluateFlag_noTarget flag 0 s rid h hp hseed, bucket_zero_false]
    | some t =>
        by_cases ht : t = ""
        · subst ht
          rw [evaluateFlag_emptyTarget flag 0 s rid h hp hseed, bucket_zero_false]
        · rw [evaluateFlag_target flag 0 s t rid h hp hseed ht, bucket_zero_false]
  · intro h hp hs
    obtain ⟨s, hseed⟩ := Option.isSome_iff_exists.mp hs
    cases targetId with
    | none => rw [evaluateFlag_noTarget flag 100 s rid h hp hseed, bucket_hundred_true]
    | some t =>
        by_cases ht : t = ""
        · subst ht
          rw [evaluateFlag_emptyTarget flag 100 s rid h hp hseed, bucket_hundred_true]
        · rw [evaluateFlag_target flag 100 s t rid h hp hseed ht, bucket_hundred_true]

/-- C4 witness at three concrete flags and a concrete target. -/
theorem claim4_rollout_boundaries_witness :
    evaluateFlag disabledFlag (some "u") "r" = false
    ∧ evaluateFlag zeroPercentFlag (some "u") "r" = false
    ∧ evaluateFlag fullPercentFlag (some "u") "r" = true :=
  ⟨(claim4_rollout_boundaries disabledFlag (some "u") "r").1 rfl,
   (claim4_rollout_boundaries zeroPercentFlag (some "u") "r").2.1 rfl rfl rfl,
   (claim4_rollout_boundaries fullPercentFlag (some "u") "r").2.2 rfl rfl rfl⟩

/-- C5 counterexample: with the empty string supplied as targetId the
evaluator falls back to the per-call random identifier, so two calls that
draw different identifiers (rLo and rHi model the two draws) can return
different booleans for the same (key, seed, percentage, targetId) tuple. -/
theorem claim5_counterexample :
    evaluateFlag sampleFlag (some "") rLo ≠ evaluateFlag sampleFlag (some "") rHi := by
  rw [evaluateFlag_rLo, evaluateFlag_rHi]
  decide

/-- C5 (amended): for every fixed flag and nonempty target identifier the
rollout decision is independent of the per-call random identifier, hence
identical across repeated evaluations. -/
theorem claim5_determinism_amended (flag : FeatureFlagMetadata) (t : String)
    (ht : t ≠ "") (r1 r2 : String) :
    evaluateFlag flag (some t) r1 = evaluateFlag flag (some t) r2 := by
  rcases flag with ⟨key, en, name, rp, rs⟩
  cases rp <;> cases rs <;> simp [evaluateFlag, ht]

/-- C5 witness at a concrete flag, target and pair of random draws. -/
theorem claim5_determinism_witness :
    evaluateFlag sampleFlag (some "user-123") "r1"
      = evaluateFlag sampleFlag (some "user-123") "r2" :=
  claim5_determinism_amended sampleFlag "user-123" (by decide) "r1" "r2"

/-- C10: an empty-string targetId degenerates to the bare flag key in the
cache, and rollout evaluation behaves exactly as with no targetId: it
hashes the per-call random identifier, so distinct draws (rLo, rHi) can
flip the result. -/
theorem claim10_empty_target :
    (∀ flagKey : String, cacheKeyOf flagKey (some "") = cacheKeyOf flagKey none)
    ∧ (∀ (flag : FeatureFlagMetadata) (rid : String),
        evaluateFlag flag (some "") rid = evaluateFlag flag none rid)
    ∧ evaluateFlag sampleFlag (some "") rLo = true
    ∧ evaluateFlag sampleFlag (some "") rHi = false := by
  refine ⟨fun _ => rfl, ?_, evaluateFlag_rLo, evaluateFlag_rHi⟩
  intro flag rid
  rcases flag with ⟨key, en, name, rp, rs⟩
  cases rp <;> cases rs <;> simp [evaluateFlag]

/-- A get on an absent key returns absent and leaves the cache alone. -/
theorem getCachedValue_of_none (c : FlagCache) (k : String) (now : Nat)
    (h : mapGet c k = none) : getCachedValue c k now = (none, c) := by
  unfold getCachedValue
  rw [h]

/-- C6: TTL expiry is lazy and mutating: with an entry present, a get at
now at or before expiresAt returns the value and stamps lastAccessed to
now in place; a get after expiresAt deletes the entry and reports absent. -/
theorem claim6_ttl_expiry (c : FlagCache) (k : String) (e : CacheEntry) (now : Nat)
    (hnd : (mapKeys c).Nodup) (h : mapGet c k = some e) :
    (now ≤ e.expiresAt →
      getCachedValue c k now
          = (some e.value, mapSet c k { e with lastAccessed := now })
        ∧ mapGet (getCachedValue c k now).2 k = some { e with lastAccessed := now })
    ∧ (e.expiresAt < now →
      getCachedValue c k now = (none, mapDelete c k)
        ∧ mapGet (getCachedValue c k now).2 k = none) := by
  constructor
  · intro hle
    have h1 : getCachedValue c k now
        = (some e.value, mapSet c k { e with lastAccessed := now }) := by
      have hnot : ¬ e.expiresAt < now := not_lt.mpr hle
      unfold getCachedValue
      rw [h]
      simp [hnot]
    refine ⟨h1, ?_⟩
    rw [h1]
    exact mapGet_mapSet_self c k _
  · intro hlt
    have h1 : getCachedValue c k now = (none, mapDelete c k) := by
      unfold getCachedValue
      rw [h]
      simp [hlt]
    refine ⟨h1, ?_⟩
    rw [h1]
    exact mapGet_mapDelete_self c k hnd

/-- C6 witness: one concrete entry read before and after its expiry. -/
theorem claim6_ttl_expiry_witness :
    (getCachedValue singleCache "k" 50
        = (some sampleEntry.value, mapSet singleCache "k" { sampleEntry with lastAccessed := 50 })
      ∧ mapGet (getCachedValue singleCache "k" 50).2 "k"
          = some { sampleEntry with lastAccessed := 50 })
    ∧ (getCachedValue singleCache "k" 101 = (none, mapDelete singleCache "k")
      ∧ mapGet (getCachedValue singleCache "k" 101).2 "k" = none) :=
  ⟨(claim6_ttl_expiry singleCache "k" sampleEntry 50 (by decide) (by decide)).1
      (by decide),
   (claim6_ttl_expiry singleCache "k" sampleEntry 101 (by decide) (by decide)).2
      (by decide)⟩

/-- C9: bulk-snapshot precedence: with caching enabled and a fresh bulk
snapshot containing the flag key, isEnabled answers locally through the
rollout evaluator, performs no network fetch, and leaves the whole state,
in particular the per-flag cache, untouched. -/
theorem claim9_bulk_precedence (st : SDKState) (flagKey : String) (d : Bool)
    (targetId : Option String) (rid : String) (outcome : FetchOutcome) (now : Nat)
    (b : BulkSnapshot) (flag : FeatureFlagMetadata)
    (hkey : flagKey ≠ "") (hen : st.cacheConfig.enabled = true)
    (hb : st.bulkFlagsCache = some b) (hfresh : now < b.expiresAt)
    (hflag : mapGet b.flags flagKey = some flag) :
    isEnabled st flagKey d targetId rid outcome now
      = (.ok (evaluateFlag flag targetId rid), st, false) := by
  have hbulk : bulkLookup st flagKey now = some flag := by
    unfold bulkLookup
    rw [hen, hb]
    simp [hfresh, hflag]
  unfold isEnabled
  rw [if_neg hkey, hbulk]

/-- C9 witness: a concrete fresh snapshot state answering locally. -/
theorem claim9_bulk_precedence_witness :
    sampleState.bulkFlagsCache = some sampleSnapshot
    ∧ (0 : Nat) < sampleSnapshot.expiresAt
    ∧ isEnabled sampleState "f" false (some "u") "r" .otherError 0
        = (.ok (evaluateFlag sampleFlag (some "u") "r"), sampleState, false) :=
  ⟨rfl, by norm_num [sampleSnapshot],
   claim9_bulk_precedence sampleState "f" false (some "u") "r" .otherError 0
     sampleSnapshot sampleFlag (by decide) rfl rfl (by norm_num [sampleSnapshot]) rfl⟩

/-- C7: absorbed failures and no negative caching: on every single-flag
fetch outcome other than a 2xx response with a parseable body, the fetch
resolves to the caller default with shouldCache false (no exception is
modelled because every branch returns a value), the write-back step
leaves any cache unchanged, and a full isEnabled round on a cache miss
returns the default and leaves the whole SDK state unchanged. -/
theorem claim7_failures_absorbed (o : FetchOutcome) (d : Bool)
    (h : isCacheableOutcome o = false) :
    fetchFlagFromApiWithCacheInfo o d = (d, false)
    ∧ (∀ (cache : FlagCache) (cacheKey : String) (enabled : Bool) (now ttl maxSize : Nat),
        cacheAfterFetch cache cacheKey (fetchFlagFromApiWithCacheInfo o d)
          enabled now ttl maxSize = cache)
    ∧ (∀ (st : SDKState) (flagKey : String) (targetId : Option String)
        (rid : String) (now : Nat),
        flagKey ≠ "" →
        bulkLookup st flagKey now = none →
        mapGet st.cache (cacheKeyOf flagKey targetId) = none →
        isEnabled st flagKey d targetId rid o now = (.ok d, st, true)) := by
  have h1 : fetchFlagFromApiWithCacheInfo o d = (d, false) := by
    cases o with
    | response status body =>
        cases body with
        | malformed =>
            simp only [fetchFlagFromApiWithCacheInfo]
            split_ifs <;> rfl
        | parsed en =>
            have hok : respOk status = false := by
              simpa [isCacheableOutcome] using h
            simp only [fetchFlagFromApiWithCacheInfo]
            split_ifs with h401 h403 h404 hnotok
            · rfl
            · rfl
            · rfl
            · rfl
            · simp [hok] at hnotok
    | abortError => rfl
    | typeError => rfl
    | otherError => rfl
  refine ⟨h1, ?_, ?_⟩
  · intro cache cacheKey enabled now ttl maxSize
    rw [h1]
    unfold cacheAfterFetch
    simp
  · intro st flagKey targetId rid now hkey hbulk hmiss
    unfold isEnabled
    rw [if_neg hkey, hbulk]
    have hget : (if st.cacheConfig.enabled then
        getCachedValue st.cache (cacheKeyOf flagKey targetId) now
        else (none, st.cache)) = (none, st.cache) := by
      split
      · exact getCachedValue_of_none st.cache _ now hmiss
      · rfl
    simp only [hget, h1]
    simp

/-- C7 witness: a 500 response with unparseable body on a state whose
bulk snapshot misses the key and whose per-flag cache misses the slot. -/
theorem claim7_failures_absorbed_witness :
    fetchFlagFromApiWithCacheInfo (.response 500 .malformed) true = (true, false)
    ∧ cacheAfterFetch singleCache "g"
        (fetchFlagFromApiWithCacheInfo (.response 500 .malformed) true)
        true 0 300 1000 = singleCache
    ∧ isEnabled sampleState "g" true none "r" (.response 500 .malformed) 0
        = (.ok true, sampleState, true) :=
  ⟨(claim7_failures_absorbed (.response 500 .malformed) true (by decide)).1,
   (claim7_failures_absorbed (.response 500 .malformed) true (by decide)).2.1
     singleCache "g" true 0 300 1000,
   (claim7_failures_absorbed (.response 500 .malformed) true (by decide)).2.2
     sampleState "g" none "r" 0 (by decide) (by decide) (by decide)⟩

/-- C8: bulk fetch is atomic and loud: when no fresh snapshot short-む
circuits the call, a non-2xx response, a timeout, or a connection failure
raises the corresponding structured error and leaves the whole state, in
particular the previous bulk snapshot, untouched; a 2xx parsed response
with caching enabled replaces the snapshot wholesale with a fresh copy
expiring at now plus ttl. -/
theorem claim8_bulk_atomic (st : SDKState) (now : Nat)
    (hfresh : freshBulk st now = none) :
    (∀ (status : Nat) (body : BulkBody), respOk status = false →
        getAllFlags st (.response status body) now = (.error (.apiError status), st))
    ∧ getAllFlags st .abortError now = (.error .networkTimeout, st)
    ∧ getAllFlags st .typeError now = (.error .networkConnect, st)
    ∧ (∀ (status : Nat) (fl : Option (List FeatureFlagMetadata)),
        respOk status = true → st.cacheConfig.enabled = true →
        getAllFlags st (.response status (.parsed fl)) now
          = (.ok (buildFlagsMap fl),
             { st with bulkFlagsCache := some (BulkSnapshot.mk (buildFlagsMap fl)
                 now (now + st.cacheConfig.ttl * 1000)) })) := by
  refine ⟨?_, ?_, ?_, ?_⟩
  · intro status body hok
    unfold getAllFlags
    rw [hfresh]
    simp [hok]
  · unfold getAllFlags
    rw [hfresh]
  · unfold getAllFlags
    rw [hfresh]
  · intro status fl hok hen
    unfold getAllFlags
    rw [hfresh]
    simp [hok, hen]

/-- C8 witness: at time 1000 the sample snapshot is stale, so the fetch
really happens; each failure leaves the old snapshot in place and a 200
response replaces it. -/
theorem claim8_bulk_atomic_witness :
    freshBulk sampleState 1000 = none
    ∧ getAllFlags sampleState (.response 503 .malformed) 1000
        = (.error (.apiError 503), sampleState)
    ∧ getAllFlags sampleState .abortError 1000 = (.error .networkTimeout, sampleState)
    ∧ getAllFlags sampleState .typeError 1000 = (.error .networkConnect, sampleState)
    ∧ getAllFlags sampleState (.response 200 (.parsed (some [sampleFlag]))) 1000
        = (.ok (buildFlagsMap (some [sampleFlag])),
           { sampleState with bulkFlagsCache := some (BulkSnapshot.mk
               (buildFlagsMap (some [sampleFlag])) 1000
               (1000 + sampleState.cacheConfig.ttl * 1000)) }) :=
  ⟨by decide,
   (claim8_bulk_atomic sampleState 1000 (by decide)).1 503 .malformed (by decide),
   (claim8_bulk_atomic sampleState 1000 (by decide)).2.1,
   (claim8_bulk_atomic sampleState 1000 (by decide)).2.2.1,
   (claim8_bulk_atomic sampleState 1000 (by decide)).2.2.2 200
     (some [sampleFlag]) (by decide) rfl⟩

/-- Any sequence of puts with nonempty keys keeps the cache well formed
and within maxSize. -/
theorem setCachedValue_foldl_le (ttl maxSize : Nat) (hmax : 1 ≤ maxSize) :
    ∀ (ops : List (String × Bool × Nat)) (c : FlagCache), CacheWF c →
      c.length ≤ maxSize → (∀ o ∈ ops, o.1 ≠ "") →
      CacheWF (ops.foldl (fun acc o => setCachedValue acc o.1 o.2.1 o.2.2 ttl maxSize) c)
      ∧ (ops.foldl (fun acc o => setCachedValue acc o.1 o.2.1 o.2.2 ttl maxSize) c).length
          ≤ maxSize := by
  intro ops
  induction ops with
  | nil =>
      intro c hwf hlen _
      exact ⟨hwf, hlen⟩
  | cons o rest ih =>
      intro c hwf hlen hops
      simp only [List.foldl_cons]
      apply ih
      · exact cacheWF_setCachedValue c o.1 o.2.1 o.2.2 ttl maxSize hwf
          (hops o (List.mem_cons_self o rest))
      · exact setCachedValue_length_le c o.1 o.2.1 o.2.2 ttl maxSize hwf hmax hlen
      · intro o' ho'
        exact hops o' (List.mem_cons_of_mem o ho')

/-- C2 counterexample: at capacity two, putting the already-present key
"b" still evicts the least recently used entry "a": the code checks
capacity before key presence, so eviction is not restricted to new keys. -/
theorem claim2_counterexample :
    (mapGet fullCache "b").isSome = true
    ∧ fullCache.length = 2
    ∧ mapGet (setCachedValue fullCache "b" true 10 300 2) "a" = none := by
  decide

/-- C2 (amended): put evicts exactly when the store is at maxEntries
capacity, whether or not the key is already present; the evicted entry
has minimal lastAccessed (and disappears whenever its key differs from
the one being put); below capacity put is plain insertion; and the size
never exceeds maxEntries, including over any sequence of puts. -/
theorem claim2_lru_amended (c : FlagCache) (k : String) (v : Bool)
    (now ttl maxSize : Nat) (hwf : CacheWF c) (_hk : k ≠ "")
    (hmax : 1 ≤ maxSize) (hlen : c.length ≤ maxSize) :
    (setCachedValue c k v now ttl maxSize).length ≤ maxSize
    ∧ (c.length < maxSize →
        setCachedValue c k v now ttl maxSize
          = mapSet c k (CacheEntry.mk v now (now + ttl * 1000) now))
    ∧ (maxSize ≤ c.length →
        ∃ m e, mapGet c m = some e
          ∧ (∀ p ∈ c, e.lastAccessed ≤ p.2.lastAccessed)
          ∧ setCachedValue c k v now ttl maxSize
              = mapSet (mapDelete c m) k (CacheEntry.mk v now (now + ttl * 1000) now)
          ∧ (m ≠ k → mapGet (setCachedValue c k v now ttl maxSize) m = none))
    ∧ (∀ ops : List (String × Bool × Nat), (∀ o ∈ ops, o.1 ≠ "") →
        (ops.foldl (fun acc o => setCachedValue acc o.1 o.2.1 o.2.2 ttl maxSize)
          []).length ≤ maxSize) := by
  refine ⟨setCachedValue_length_le c k v now ttl maxSize hwf hmax hlen, ?_, ?_, ?_⟩
  · intro hlt
    unfold setCachedValue
    rw [if_neg (by omega : ¬ maxSize ≤ c.length)]
  · intro hfull
    have hcne : c ≠ [] := by
      intro hnil
      rw [hnil] at hfull
      simp at hfull
      omega
    obtain ⟨m, e, hmem, hmin, hev⟩ := evictOldestEntry_spec c hcne hwf.2
    have hget : mapGet c m = some e := mem_mapGet c m e hwf.1 hmem
    have heq : setCachedValue c k v now ttl maxSize
        = mapSet (mapDelete c m) k (CacheEntry.mk v now (now + ttl * 1000) now) := by
      unfold setCachedValue
      rw [if_pos hfull, hev]
    refine ⟨m, e, hget, hmin, heq, ?_⟩
    intro hmk
    rw [heq, mapGet_mapSet_ne _ k m _ hmk]
    exact mapGet_mapDelete_self c m hwf.1
  · intro ops hops
    refine (setCachedValue_foldl_le ttl maxSize hmax ops [] ⟨?_, ?_⟩ ?_ hops).2
    · exact List.nodup_nil
    · intro k' hk'
      simp [mapKeys] at hk'
    · exact Nat.zero_le maxSize

/-- C2 witness: putting a fresh key into the full two-entry cache stays
within capacity and evicts the minimal-lastAccessed entry. -/
theorem claim2_lru_witness :
    (setCachedValue fullCache "c" true 10 300 2).length ≤ 2
    ∧ ∃ m e, mapGet fullCache m = some e
        ∧ (∀ p ∈ fullCache, e.lastAccessed ≤ p.2.lastAccessed)
        ∧ setCachedValue fullCache "c" true 10 300 2
            = mapSet (mapDelete fullCache m) "c" (CacheEntry.mk true 10 (10 + 300 * 1000) 10)
        ∧ (m ≠ "c" → mapGet (setCachedValue fullCache "c" true 10 300 2) m = none) :=
  ⟨(claim2_lru_amended fullCache "c" true 10 300 2 ⟨by decide, by decide⟩ (by decide)
      (by decide) (by decide)).1,
   (claim2_lru_amended fullCache "c" true 10 300 2 ⟨by decide, by decide⟩ (by decide)
      (by decide) (by decide)).2.2.1 (by decide)⟩

end FlagVault
